import Mathlib

set_option maxRecDepth 100000

/-!
Shallow embedding of the `india_boundary_corrector` QGIS plugin
(`qgis_plugin/layer_configs.py`, `qgis_plugin/tile_fixer.py`,
`qgis_plugin/tile_interceptor.py`).

URLs, templates, file contents and HTTP bodies are modelled as lists of
bytes (`List Nat`, each element a UTF-8 byte value).  Python `float`
arithmetic is modelled with `ℚ`; Python `int` with `ℤ`/`ℕ`.
-/

/-- Bytes of a string literal (UTF-8; all literals used here are ASCII). -/
def strBytes (s : String) : List Nat := s.data.map Char.toNat

/-- ASCII lower-casing of one byte, as done by `re.IGNORECASE` on ASCII. -/
def lowerB (b : Nat) : Nat := if 65 ≤ b ∧ b ≤ 90 then b + 32 else b

/-- Is the byte an ASCII decimal digit (regex `\d` on ASCII input)? -/
def isDigitB (b : Nat) : Bool := 48 ≤ b && b ≤ 57

/-! ## URL template matching — `layer_configs._template_to_regex`

`_template_to_regex` escapes the template with `re.escape` and then
substitutes the placeholders `{z}`,`{x}`,`{y}` by named captures
`(?P<g>\d+)`, `{s}` by `[a-z]`, `{r}` by `(?:@\d+(?:\.\d+)?x)?`,
appends `(?:\?.*)?`, anchors the pattern (`^...$`) and compiles it with
`re.IGNORECASE`.  (Under Python ≥ 3.7 `re.escape`, the later
`{a-c}`/`{1-4}` substitutions and the `https\:` replacement never fire,
because `-` is escaped and `:` is not; those template features therefore
remain literal text.)  The compiled pattern is the concatenation of
tokens below, matched case-insensitively with Python's backtracking
semantics (`\d+` greedy, the optional retina group tried before being
skipped). -/
inductive Tok where
  | lit (b : Nat)
  | cap (g : String)
  | cls (lo hi : Nat)
  | retina
deriving Repr, DecidableEq

/-- Token stream of the compiled regex for a template (see above). -/
def compileTemplate : List Nat → List Tok
  | [] => []
  | 123 :: 122 :: 125 :: rest => .cap "z" :: compileTemplate rest
  | 123 :: 120 :: 125 :: rest => .cap "x" :: compileTemplate rest
  | 123 :: 121 :: 125 :: rest => .cap "y" :: compileTemplate rest
  | 123 :: 115 :: 125 :: rest => .cls 97 122 :: compileTemplate rest
  | 123 :: 114 :: 125 :: rest => .retina :: compileTemplate rest
  | b :: rest => .lit b :: compileTemplate rest

/-- Length of the maximal digit prefix of the input. -/
def digitCount : List Nat → Nat
  | [] => 0
  | b :: rest => if isDigitB b then digitCount rest + 1 else 0

/-- The candidate (captured, remainder) splits for a greedy `\d+` capture,
longest capture first, as Python's backtracking tries them. -/
def capSplits (input : List Nat) : List (List Nat × List Nat) :=
  (List.range (digitCount input)).map
    (fun i => (input.take (digitCount input - i), input.drop (digitCount input - i)))

/-- Candidate remainders for the optional retina group `(?:@\d+(?:\.\d+)?x)?`,
in backtracking priority order (group matched first, skipped last). -/
def retinaRests (input : List Nat) : List (List Nat) :=
  (match input with
   | 64 :: rest =>
     let n := digitCount rest
     ((List.range n).map (fun i => n - i)).flatMap (fun k =>
        let after := rest.drop k
        (match after with
         | 46 :: r2 =>
           let m := digitCount r2
           ((List.range m).map (fun j => m - j)).filterMap (fun d =>
              match r2.drop d with
              | 120 :: r3 => some r3
              | _ => none)
         | _ => []) ++
        (match after with
         | 120 :: r3 => [r3]
         | _ => []))
   | _ => []) ++ [input]

/-- Backtracking matcher for a compiled token stream against a URL.
Returns the named captures on success.  The base case implements the
trailing `(?:\?.*)?$` (query-string tolerance) appended by
`_template_to_regex`; literal and class tokens match case-insensitively
(`re.IGNORECASE`). -/
def matchToks : List Tok → List Nat → Option (List (String × List Nat))
  | [], input =>
      if input = [] ∨ input.head? = some 63 then some [] else none
  | .lit _ :: _, [] => none
  | .lit c :: ts, d :: ds =>
      if lowerB c = lowerB d then matchToks ts ds else none
  | .cls _ _ :: _, [] => none
  | .cls lo hi :: ts, d :: ds =>
      if lo ≤ lowerB d ∧ lowerB d ≤ hi then matchToks ts ds else none
  | .cap g :: ts, input =>
      (capSplits input).findSome?
        (fun p => (matchToks ts p.2).map (fun caps => (g, p.1) :: caps))
  | .retina :: ts, input =>
      (retinaRests input).findSome? (fun r => matchToks ts r)

/-- A tile coordinate as produced by `extract_coords` (Python ints). -/
structure Coords where
  z : ℤ
  x : ℤ
  y : ℤ
deriving Repr, DecidableEq

/-- Python `int()` of a nonempty decimal-digit byte string. -/
def bytesToNat (ds : List Nat) : Nat := ds.foldl (fun a d => a * 10 + (d - 48)) 0

/-- First value bound to a capture name (`match.groupdict()` lookup). -/
def capLookup (g : String) : List (String × List Nat) → Option (List Nat)
  | [] => none
  | (g', v) :: rest => if g' = g then some v else capLookup g rest

/-- A per-zoom line style entry (`lineStyles` element); absent dict keys
are modelled with `Option`, mirroring `style.get(...)` defaults. -/
structure Style where
  startZoom : Option ℤ
  endZoom : Option ℤ
  color : Option String
  widthFraction : Option ℚ

/-- A provider configuration (`configs.json` entry); absent dict keys are
modelled with `Option`, mirroring `config.get(...)` defaults.
`lineWidthStops` keys are stored already converted by `int(k)`. -/
structure LayerConfig where
  tileUrlTemplates : List String
  startZoom : Option ℤ
  zoomThreshold : Option ℤ
  lineWidthStops : Option (List (ℤ × ℚ))
  delWidthFactor : Option ℚ
  lineStyles : Option (List Style)

/-- `layer_configs.extract_coords`: try the config's templates in order;
on the first regex match whose groupdict has `z`,`x`,`y`, return them as
ints. -/
def extract_coords (url : List Nat) (config : LayerConfig) : Option Coords :=
  config.tileUrlTemplates.findSome? (fun t =>
    match matchToks (compileTemplate (strBytes t)) url with
    | none => none
    | some caps =>
      match capLookup "z" caps, capLookup "x" caps, capLookup "y" caps with
      | some zs, some xs, some ys =>
          some ⟨(bytesToNat zs : ℤ), (bytesToNat xs : ℤ), (bytesToNat ys : ℤ)⟩
      | _, _, _ => none)

/-- `layer_configs.match_url`: first config (in table order) one of whose
templates matches the URL. -/
def match_url (configs : List LayerConfig) (url : List Nat) : Option LayerConfig :=
  configs.find? (fun c =>
    c.tileUrlTemplates.any (fun t =>
      (matchToks (compileTemplate (strBytes t)) url).isSome))

/-- `layer_configs.get_line_styles_for_zoom`: styles whose
`[startZoom, endZoom]` range contains `z` (`startZoom` defaulting to the
config's, `endZoom` defaulting to `float('inf')`). -/
def get_line_styles_for_zoom (config : LayerConfig) (z : ℤ) : List Style :=
  let sz := config.startZoom.getD 0
  (config.lineStyles.getD []).filter (fun st =>
    decide (st.startZoom.getD sz ≤ z) &&
      (match st.endZoom with
       | none => true
       | some e => decide (z ≤ e)))

/-! ## Line-width interpolation — `layer_configs.get_line_width` -/

/-- One insertion step of Python `sorted` on `(int, float)` pairs
(lexicographic tuple order, stable). -/
def insertStop (p : ℤ × ℚ) : List (ℤ × ℚ) → List (ℤ × ℚ)
  | [] => [p]
  | q :: rest =>
      if p.1 < q.1 ∨ (p.1 = q.1 ∧ p.2 ≤ q.2) then p :: q :: rest
      else q :: insertStop p rest

/-- Python `sorted([(int(k), v) for k, v in stops.items()])`. -/
def sortStops (stops : List (ℤ × ℚ)) : List (ℤ × ℚ) := stops.foldr insertStop []

/-- The `for i in range(len(stops) - 1)` scan of `get_line_width`: the
first adjacent window `[z1, z2]` containing `z` yields the interpolated
width; `none` when no window matched (the loop falls through). -/
def interpScan (z : ℚ) : List (ℤ × ℚ) → Option ℚ
  | (z1, w1) :: (z2, w2) :: rest =>
      if (z1 : ℚ) ≤ z ∧ z ≤ (z2 : ℚ) then
        some (w1 + (z - (z1 : ℚ)) / ((z2 : ℚ) - (z1 : ℚ)) * (w2 - w1))
      else interpScan z ((z2, w2) :: rest)
  | _ => none

/-- `layer_configs.get_line_width`: sort the stops, clamp below the first
and above the last, otherwise linearly interpolate in the first window
containing `z` (with the source's `return stops[-1][1]` fall-through). -/
def get_line_width (z : ℚ) (line_width_stops : List (ℤ × ℚ)) : ℚ :=
  let stops := sortStops line_width_stops
  match stops with
  | [] => 1
  | first :: rest =>
    let last := rest.getLastD first
    if z ≤ (first.1 : ℚ) then first.2
    else if z ≥ (last.1 : ℚ) then last.2
    else (interpScan z (first :: rest)).getD last.2

/-! ## Percent-encoding — `urllib` `quote(url, safe='')` / `unquote`
as used by `TileInterceptor.get_proxy_url` and `TileProxyHandler.do_GET`.
Both are modelled at the UTF-8 byte level. -/

/-- `urllib`'s always-safe set: ASCII letters, digits, `_.-~`. -/
def isUnreserved (b : Nat) : Bool :=
  (48 ≤ b && b ≤ 57) || (65 ≤ b && b ≤ 90) || (97 ≤ b && b ≤ 122) ||
    b = 45 || b = 46 || b = 95 || b = 126

/-- Uppercase hex digit byte for a value `< 16`. -/
def hexDigitU (n : Nat) : Nat := if n < 10 then 48 + n else 55 + n

/-- `quote` of a single byte with `safe=''`: unreserved bytes pass
through, everything else becomes `%XX` (uppercase hex). -/
def quoteByte (b : Nat) : List Nat :=
  if isUnreserved b then [b] else [37, hexDigitU (b / 16), hexDigitU (b % 16)]

/-- `urllib.request.quote(url, safe='')` on the URL's UTF-8 bytes. -/
def quoteB (u : List Nat) : List Nat := (u.map quoteByte).flatten

/-- Is the byte a hex digit (a key character of `unquote`'s table)? -/
def isHexB (b : Nat) : Bool :=
  (48 ≤ b && b ≤ 57) || (65 ≤ b && b ≤ 70) || (97 ≤ b && b ≤ 102)

/-- Value of a hex digit byte. -/
def hexVal (b : Nat) : Nat :=
  if 48 ≤ b && b ≤ 57 then b - 48
  else if 65 ≤ b && b ≤ 70 then b - 55
  else b - 87

/-- `urllib.request.unquote` (byte level): decode `%XX` for valid hex
pairs, leave invalid `%` sequences literal. -/
def unquoteB : List Nat → List Nat
  | [] => []
  | 37 :: h1 :: h2 :: rest2 =>
      if isHexB h1 && isHexB h2 then
        (hexVal h1 * 16 + hexVal h2) :: unquoteB rest2
      else 37 :: unquoteB (h1 :: h2 :: rest2)
  | 37 :: rest => 37 :: unquoteB rest
  | b :: rest => b :: unquoteB rest

/-- `TileInterceptor.get_proxy_url`: builds
`http://127.0.0.1:{port}/proxy/{encoded}` where `encoded` is the quote
of the original URL with an empty safe set. -/
def get_proxy_url (port : Nat) (original_url : List Nat) : List Nat :=
  strBytes "http://127.0.0.1:" ++ strBytes (toString port) ++
    strBytes "/proxy/" ++ quoteB original_url

/-- The handler's decoding of a request path (`do_GET` lines 43–45):
strip the 7-byte `/proxy/` prefix and percent-decode the rest. -/
def handlerDecodePath (path : List Nat) : List Nat := unquoteB (path.drop 7)

/-! ## PMTiles header — `TileFixer._read_header` -/

/-- Little-endian unsigned 64-bit integer at `off` in `hd`
(`struct.unpack('<Q', header_data[off:off+8])`). -/
def le64 (hd : List Nat) (off : Nat) : Nat :=
  ((List.range 8).map (fun i => hd.getD (off + i) 0 * 256 ^ i)).sum

/-- The parsed fixed-layout PMTiles v3 header fields. -/
structure PMHeader where
  root_dir_offset : Nat
  root_dir_length : Nat
  json_metadata_offset : Nat
  json_metadata_length : Nat
  leaf_dirs_offset : Nat
  leaf_dirs_length : Nat
  tile_data_offset : Nat
  tile_data_length : Nat
  internal_compression : Nat
  tile_compression : Nat
  tile_type : Nat
  min_zoom : Nat
  max_zoom : Nat
deriving Repr, DecidableEq

/-- `TileFixer._read_header` on the archive file's bytes: check the 7-byte
magic `PMTiles` and version byte 3, then read the fixed field block.
Python raises (`ValueError` / `struct.error` / `IndexError`) on bad magic,
bad version, or a file too short for the accessed fields (the highest
access is `header_data[75]`); those raises are the `error` results. -/
def read_header (bs : List Nat) : Except String PMHeader :=
  if bs.take 7 ≠ strBytes "PMTiles" then .error "Invalid PMTiles file"
  else
    match bs.drop 7 with
    | [] => .error "struct.error"
    | v :: rest =>
      if v ≠ 3 then .error "Unsupported PMTiles version"
      else
        let hd := rest.take 119
        if hd.length < 76 then .error "struct.error"
        else .ok {
          root_dir_offset := le64 hd 0
          root_dir_length := le64 hd 8
          json_metadata_offset := le64 hd 16
          json_metadata_length := le64 hd 24
          leaf_dirs_offset := le64 hd 32
          leaf_dirs_length := le64 hd 40
          tile_data_offset := le64 hd 48
          tile_data_length := le64 hd 56
          internal_compression := hd.getD 71 0
          tile_compression := hd.getD 72 0
          tile_type := hd.getD 73 0
          min_zoom := hd.getD 74 0
          max_zoom := hd.getD 75 0 }

/-! ## TileFixer state — `tile_fixer.TileFixer` -/

/-- The geometry of a GeoJSON-like feature dict, as interpreted by
`TileFixer._draw_feature` (`geometry['type']` dispatch; any other type
tag is ignored).  Coordinates are rationals (Python numbers). -/
inductive Geometry where
  | lineString (coords : List (ℚ × ℚ))
  | multiLineString (lines : List (List (ℚ × ℚ)))
  | other
deriving DecidableEq

/-- A correction feature. -/
structure Feature where
  geometry : Geometry
deriving DecidableEq

/-- A corrections dict: layer name → feature list (association list with
first-key-wins lookup, like a Python dict built once). -/
def CorrDict := List (String × List Feature)
deriving instance DecidableEq for CorrDict

/-- `d.get(k, [])` on a corrections dict. -/
def dget (d : CorrDict) (k : String) : List Feature :=
  match d with
  | [] => []
  | (k', v) :: rest => if k' = k then v else dget rest k

/-- The stubbed corrections value built by `get_corrections`: the four
fixed layer names, each with an empty feature list. -/
def emptyCorrections : CorrDict :=
  [("to-add-osm", []), ("to-del-osm", []), ("to-add-ne", []), ("to-del-ne", [])]

/-- Mutable state of a `TileFixer` instance: whether `self._pmtiles` is
set (the file object; set as soon as `open` succeeds, even if the
subsequent header parse raises), the parsed header, and the per-tile
corrections cache. -/
structure FixerState where
  pmOpen : Bool
  header : Option PMHeader
  cache : List ((ℤ × ℤ × ℤ) × CorrDict)

/-- A freshly constructed `TileFixer`. -/
def initFixer : FixerState := ⟨false, none, []⟩

/-- The world the fixer and proxy read: the archive file's bytes (`none`
when the file does not exist) and the upstream HTTP fetch (`none` when
the fetch raises `URLError`). -/
structure FetchResult where
  body : List Nat
  contentType : String
deriving DecidableEq

structure Env where
  archive : Option (List Nat)
  fetch : List Nat → Option FetchResult

/-- Cache lookup (`cache_key in self._cache` / `self._cache[cache_key]`). -/
def cacheGet (c : List ((ℤ × ℤ × ℤ) × CorrDict)) (k : ℤ × ℤ × ℤ) : Option CorrDict :=
  match c with
  | [] => none
  | (k', v) :: rest => if k' = k then some v else cacheGet rest k

/-- `TileFixer._ensure_pmtiles`: no-op when the file object is already
set; otherwise open the file (setting `self._pmtiles` first) and parse
the header.  Returns whether it completed without raising, plus the new
state: note that a header-parse failure leaves `self._pmtiles` set. -/
def ensurePmtiles (fx : FixerState) (env : Env) : Bool × FixerState :=
  if fx.pmOpen then (true, fx)
  else
    match env.archive with
    | none => (false, fx)
    | some bs =>
      let fx1 : FixerState := { fx with pmOpen := true }
      match read_header bs with
      | .error _ => (false, fx1)
      | .ok h => (true, { fx1 with header := some h })

/-- `TileFixer.get_corrections`: serve from the cache when present;
otherwise ensure the archive is open and return (and cache) the stubbed
empty corrections for the four fixed layers; any exception yields the
empty dict (uncached). -/
def get_corrections (fx : FixerState) (env : Env) (z x y : ℤ) :
    CorrDict × FixerState :=
  match cacheGet fx.cache (z, x, y) with
  | some d => (d, fx)
  | none =>
    let r := ensurePmtiles fx env
    if r.1 then
      (emptyCorrections,
       { r.2 with cache := ((z, x, y), emptyCorrections) :: r.2.cache })
    else ([], r.2)

/-! ## Rendering — `TileFixer.fix_tile` and helpers

PIL is opaque to this embedding: an `ImgOps` bundle supplies the image
type and the four PIL operations `fix_tile` uses (`Image.open`,
`convert`, `ImageDraw.line`, `save`).  `fix_tile` is assumed to run with
PIL importable (the `Image is None` early return is not modelled). -/

structure ImgOps where
  Img : Type
  imageOpen : List Nat → Option Img
  convertRGBA : Img → Img
  drawLine : Img → List (ℚ × ℚ) → Nat × Nat × Nat × Nat → ℤ → Img
  save : Img → String → List Nat

/-- Python `int()` truncation (toward zero) of a rational. -/
def ratTrunc (q : ℚ) : ℤ := q.num / (q.den : ℤ)

/-- Skip the whitespace bytes matched by regex `\s`. -/
def skipWs : List Char → List Char
  | c :: rest =>
      if c = ' ' ∨ c = '\t' ∨ c = '\n' ∨ c = '\r' ∨ c = '\x0b' ∨ c = '\x0c' then
        skipWs rest
      else c :: rest
  | [] => []

/-- Maximal decimal-digit prefix of a char list, with the remainder. -/
def takeDigits : List Char → List Char × List Char
  | c :: rest =>
      if c.isDigit then
        let (ds, r) := takeDigits rest
        (c :: ds, r)
    else ([], c :: rest)
  | [] => ([], [])

/-- Nat value of a decimal digit char list. -/
def digitsToNat (ds : List Char) : Nat :=
  ds.foldl (fun a c => a * 10 + (c.toNat - 48)) 0

/-- Prefix match of `rgb\s*\(\s*(\d+)\s*,\s*(\d+)\s*,\s*(\d+)\s*\)`
(as `re.match` does: anchored at the start, trailing text ignored). -/
def parseRgb (s : List Char) : Option (Nat × Nat × Nat) :=
  match s with
  | 'r' :: 'g' :: 'b' :: r0 =>
    match skipWs r0 with
    | '(' :: r1 =>
      let (d1, r2) := takeDigits (skipWs r1)
      if d1 = [] then none else
      match skipWs r2 with
      | ',' :: r3 =>
        let (d2, r4) := takeDigits (skipWs r3)
        if d2 = [] then none else
        match skipWs r4 with
        | ',' :: r5 =>
          let (d3, r6) := takeDigits (skipWs r5)
          if d3 = [] then none else
          match skipWs r6 with
          | ')' :: _ => some (digitsToNat d1, digitsToNat d2, digitsToNat d3)
          | _ => none
        | _ => none
      | _ => none
    | _ => none
  | _ => none

/-- Value of a hex digit char, `none` for a non-hex char. -/
def hexCharVal (c : Char) : Option Nat :=
  if c.isDigit then some (c.toNat - 48)
  else if 'a' ≤ c ∧ c ≤ 'f' then some (c.toNat - 87)
  else if 'A' ≤ c ∧ c ≤ 'F' then some (c.toNat - 55)
  else none

/-- `int(s, 16)` of a two-char slice, `none` when not valid hex. -/
def hexPair (c1 c2 : Char) : Option Nat :=
  match hexCharVal c1, hexCharVal c2 with
  | some a, some b => some (a * 16 + b)
  | _, _ => none

/-- The `named_colors` table of `TileFixer._parse_color`. -/
def namedColor (s : String) : Nat × Nat × Nat × Nat :=
  if s = "red" then (255, 0, 0, 255)
  else if s = "green" then (0, 128, 0, 255)
  else if s = "blue" then (0, 0, 255, 255)
  else if s = "black" then (0, 0, 0, 255)
  else if s = "white" then (255, 255, 255, 255)
  else if s = "gray" then (128, 128, 128, 255)
  else if s = "grey" then (128, 128, 128, 255)
  else (0, 128, 0, 255)

/-- `TileFixer._parse_color`: `rgb(r,g,b)` strings, `#rgb`/`#rrggbb` hex
strings, then the named-color table with green as the default.  (A `#`
string whose digits are not valid hex raises `ValueError` in Python; the
model falls through to the default instead — no config uses such a
color.) -/
def parse_color (color_str : String) : Nat × Nat × Nat × Nat :=
  match parseRgb color_str.data with
  | some (r, g, b) => (r, g, b, 255)
  | none =>
    match color_str.data with
    | '#' :: h =>
      let h6 := if h.length = 3 then h.flatMap (fun c => [c, c]) else h
      match h6 with
      | [a, b, c, d, e, f] =>
        match hexPair a b, hexPair c d, hexPair e f with
        | some r, some g, some bl => (r, g, bl, 255)
        | _, _, _ => namedColor color_str.toLower
      | _ => namedColor color_str.toLower
    | _ => namedColor color_str.toLower

/-- `TileFixer._draw_linestring`: skip degenerate lines, scale the
coordinates from the vector-tile extent (4096) to pixel space, stroke
with width `max(1, int(width))`. -/
def drawLinestring (ops : ImgOps) (img : ops.Img) (coords : List (ℚ × ℚ))
    (color : Nat × Nat × Nat × Nat) (width : ℚ) (tile_size : ℤ) : ops.Img :=
  if coords.length < 2 then img
  else
    let extent : ℚ := 4096
    let points := coords.map (fun c =>
      (c.1 * (tile_size : ℚ) / extent, c.2 * (tile_size : ℚ) / extent))
    ops.drawLine img points color (max 1 (ratTrunc width))

/-- `TileFixer._draw_feature`: dispatch on the geometry type. -/
def drawFeature (ops : ImgOps) (img : ops.Img) (f : Feature)
    (color : Nat × Nat × Nat × Nat) (width : ℚ) (tile_size : ℤ) : ops.Img :=
  match f.geometry with
  | .lineString cs => drawLinestring ops img cs color width tile_size
  | .multiLineString ls =>
      ls.foldl (fun im cs => drawLinestring ops im cs color width tile_size) img
  | .other => img

/-- `config.get('zoomThreshold', 5)`. -/
def zoomThresholdOf (config : LayerConfig) : ℤ := config.zoomThreshold.getD 5

/-- `use_osm = z >= zoom_threshold` (fix_tile line 140). -/
def useOsm (config : LayerConfig) (z : ℤ) : Bool := z ≥ zoomThresholdOf config

/-- The add-layer name selected by `fix_tile` (line 141). -/
def addLayerName (config : LayerConfig) (z : ℤ) : String :=
  if useOsm config z then "to-add-osm" else "to-add-ne"

/-- The delete-layer name selected by `fix_tile` (line 142). -/
def delLayerName (config : LayerConfig) (z : ℤ) : String :=
  if useOsm config z then "to-del-osm" else "to-del-ne"

/-- The default line-width stops `{'1': 0.5, '10': 2.5}` (fix_tile
line 162). -/
def defaultStops : List (ℤ × ℚ) := [(1, 1/2), (10, 5/2)]

/-- The body of `TileFixer.fix_tile` after the `get_corrections` call
(lines 135–187), as a function of the corrections dict it returned:
empty-dict check, zoom-threshold layer selection, empty-layers check,
image decode, deletion strokes, styled addition strokes, PNG re-encode. -/
def fix_tile_body (ops : ImgOps) (corrections : CorrDict)
    (config : LayerConfig) (z : ℤ) (tile_data : List Nat) (tile_size : ℤ) :
    Option (List Nat) :=
  if corrections = [] then none
  else
    let add_features := dget corrections (addLayerName config z)
    let del_features := dget corrections (delLayerName config z)
    if add_features = [] ∧ del_features = [] then none
    else
      match ops.imageOpen tile_data with
      | none => none
      | some img0 =>
        let img := ops.convertRGBA img0
        let stops := config.lineWidthStops.getD defaultStops
        let base_width := get_line_width (z : ℚ) stops
        let del_width_factor := config.delWidthFactor.getD (3/2)
        let img1 :=
          if del_features ≠ [] then
            del_features.foldl (fun im f =>
              drawFeature ops im f (128, 128, 128, 255)
                (base_width * del_width_factor) tile_size) img
          else img
        let img2 :=
          if add_features ≠ [] then
            (get_line_styles_for_zoom config z).foldl (fun im st =>
              let color := parse_color (st.color.getD "green")
              let width := base_width * st.widthFraction.getD 1
              add_features.foldl (fun im2 f =>
                drawFeature ops im2 f color width tile_size) im) img1
          else img1
        some (ops.save img2 "PNG")

/-- `TileFixer.fix_tile`: fetch the corrections for the tile and run the
rendering body.  The default `tile_size` at the proxy's call site
is 256. -/
def fix_tile (ops : ImgOps) (fx : FixerState) (env : Env)
    (config : LayerConfig) (z x y : ℤ) (tile_data : List Nat)
    (tile_size : ℤ) : Option (List Nat) × FixerState :=
  let r := get_corrections fx env z x y
  (fix_tile_body ops r.1 config z tile_data tile_size, r.2)

/-! ## Proxy handler — `TileProxyHandler.do_GET` -/

/-- An HTTP response as the handler produces it: a 200 with a
content type and body, or `send_error` with a status code. -/
inductive HResp where
  | ok (contentType : String) (body : List Nat)
  | err (code : Nat)
deriving DecidableEq

/-- `config.get('startZoom', 0)` (do_GET line 75). -/
def startZoomOf (config : LayerConfig) : ℤ := config.startZoom.getD 0

/-- `TileProxyHandler.do_GET`: 404 off `/proxy/`, percent-decode the
original URL, fetch it upstream (502 on `URLError`), then — when the URL
matches a configured provider, yields coordinates and is at or above the
config's start zoom — attempt `fix_tile`, falling back to the original
bytes when it returns `None` (or raises); always respond 200 with the
upstream `Content-Type`. -/
def do_GET (configs : List LayerConfig) (ops : ImgOps) (fx : FixerState)
    (env : Env) (path : List Nat) : HResp × FixerState :=
  if ¬ (strBytes "/proxy/").isPrefixOf path then (.err 404, fx)
  else
    let original_url := unquoteB (path.drop 7)
    match env.fetch original_url with
    | none => (.err 502, fx)
    | some r =>
      match match_url configs original_url with
      | none => (.ok r.contentType r.body, fx)
      | some config =>
        match extract_coords original_url config with
        | none => (.ok r.contentType r.body, fx)
        | some c =>
          if c.z ≥ startZoomOf config then
            let fr := fix_tile ops fx env config c.z c.x c.y r.body 256
            match fr.1 with
            | some out => (.ok r.contentType out, fr.2)
            | none => (.ok r.contentType r.body, fr.2)
          else (.ok r.contentType r.body, fx)

/-! ## Helper lemmas: percent-encoding -/

lemma isHexB_hexDigitU {n : Nat} (h : n < 16) : isHexB (hexDigitU n) = true := by
  interval_cases n <;> decide

lemma hexVal_hexDigitU {n : Nat} (h : n < 16) : hexVal (hexDigitU n) = n := by
  interval_cases n <;> decide

lemma isUnreserved_ne_37 {b : Nat} (h : isUnreserved b = true) : b ≠ 37 := by
  simp only [isUnreserved, Bool.or_eq_true, Bool.and_eq_true, decide_eq_true_eq] at h
  omega

lemma unquoteB_cons_ne {b : Nat} (rest : List Nat) (h : b ≠ 37) :
    unquoteB (b :: rest) = b :: unquoteB rest := by
  match rest with
  | [] => simp [unquoteB, h]
  | [h1] => simp [unquoteB, h]
  | h1 :: h2 :: r => simp [unquoteB, h]

lemma unquote_quote {u : List Nat} (hu : ∀ b ∈ u, b < 256) :
    unquoteB (quoteB u) = u := by
  induction u with
  | nil => rfl
  | cons b u' ih =>
    have hb : b < 256 := hu b (List.mem_cons_self b u')
    have ih' := ih (fun c hc => hu c (List.mem_cons_of_mem b hc))
    show unquoteB ((quoteByte b :: u'.map quoteByte).flatten) = b :: u'
    rw [List.flatten_cons]
    by_cases hres : isUnreserved b = true
    · rw [show quoteByte b = [b] from by simp [quoteByte, hres]]
      rw [List.singleton_append, unquoteB_cons_ne _ (isUnreserved_ne_37 hres)]
      exact congrArg _ ih'
    · rw [show quoteByte b = [37, hexDigitU (b / 16), hexDigitU (b % 16)] from by
        simp [quoteByte, hres]]
      have hdiv : b / 16 < 16 := by omega
      have hmod : b % 16 < 16 := by omega
      show unquoteB (37 :: hexDigitU (b / 16) :: hexDigitU (b % 16) :: quoteB u') = b :: u'
      rw [unquoteB, if_pos (by rw [isHexB_hexDigitU hdiv, isHexB_hexDigitU hmod]; rfl)]
      rw [hexVal_hexDigitU hdiv, hexVal_hexDigitU hmod, ih']
      congr 1
      omega

lemma quoteByte_ne_47 {b c : Nat} (hc : c ∈ quoteByte b) : c ≠ 47 := by
  intro h
  subst h
  unfold quoteByte at hc
  split at hc
  · next hres =>
    rw [List.mem_singleton] at hc
    rw [← hc] at hres
    exact absurd hres (by decide)
  · simp only [List.mem_cons, List.not_mem_nil, or_false] at hc
    rcases hc with h | h | h
    · omega
    · revert h; simp only [hexDigitU]; split <;> omega
    · revert h; simp only [hexDigitU]; split <;> omega

/-- **C8** — Round-trip of the proxy-URL helper: `get_proxy_url` builds
`http://127.0.0.1:{port}/proxy/` followed by the percent-encoding of the
original URL as a single path segment (it contains no `/` byte), and the
handler's decoding of that path segment (`do_GET` strips `/proxy/` and
calls `unquote`) recovers exactly the original URL bytes. -/
theorem C8_proxy_url_roundtrip (port : Nat) (u : List Nat)
    (hu : ∀ b ∈ u, b < 256) :
    get_proxy_url port u =
        strBytes "http://127.0.0.1:" ++ strBytes (toString port) ++
          strBytes "/proxy/" ++ quoteB u
      ∧ 47 ∉ quoteB u
      ∧ handlerDecodePath (strBytes "/proxy/" ++ quoteB u) = u := by
  refine ⟨rfl, ?_, ?_⟩
  · intro hmem
    rcases List.mem_flatten.mp hmem with ⟨l, hl, hcl⟩
    rcases List.mem_map.mp hl with ⟨b, _, rfl⟩
    exact quoteByte_ne_47 hcl rfl
  · show unquoteB ((strBytes "/proxy/" ++ quoteB u).drop 7) = u
    rw [show (7 : Nat) = (strBytes "/proxy/").length from rfl, List.drop_left]
    exact unquote_quote hu

/-- **C8 witness** — the round-trip at a concrete URL and port. -/
theorem C8_proxy_url_roundtrip_witness :
    get_proxy_url 19876 (strBytes "https://a.tile.example/1/2/3.png") =
        strBytes "http://127.0.0.1:" ++ strBytes (toString 19876) ++
          strBytes "/proxy/" ++ quoteB (strBytes "https://a.tile.example/1/2/3.png")
      ∧ 47 ∉ quoteB (strBytes "https://a.tile.example/1/2/3.png")
      ∧ handlerDecodePath
          (strBytes "/proxy/" ++ quoteB (strBytes "https://a.tile.example/1/2/3.png")) =
          strBytes "https://a.tile.example/1/2/3.png" :=
  C8_proxy_url_roundtrip 19876 _ (by decide)

/-! ## Helper lemmas: line-width interpolation -/

/-- Strictly increasing zoom keys of a stop list (the shape of any
sorted stop list whose keys are distinct, e.g. a Python dict's). -/
def stopKeysSorted : List (ℤ × ℚ) → Bool
  | p :: q :: rest => decide (p.1 < q.1) && stopKeysSorted (q :: rest)
  | _ => true

lemma stopKeysSorted_tail {p : ℤ × ℚ} {t : List (ℤ × ℚ)}
    (h : stopKeysSorted (p :: t) = true) : stopKeysSorted t = true := by
  cases t with
  | nil => rfl
  | cons q t' => exact (Bool.and_eq_true_iff.mp h).2

lemma stopKeysSorted_head {p q : ℤ × ℚ} {t : List (ℤ × ℚ)}
    (h : stopKeysSorted (p :: q :: t) = true) : p.1 < q.1 := by
  have := (Bool.and_eq_true_iff.mp h).1
  exact of_decide_eq_true this

lemma sorted_key_le : ∀ (s : List (ℤ × ℚ)) (i j : ℕ) (a b : ℤ × ℚ),
    stopKeysSorted s = true → i ≤ j → s[i]? = some a → s[j]? = some b →
    a.1 ≤ b.1 := by
  intro s
  induction s with
  | nil => intro i j a b _ _ hi; simp at hi
  | cons p t ih =>
    intro i j a b hs hij hi hj
    cases i with
    | zero =>
      rw [List.getElem?_cons_zero] at hi
      cases hi
      cases j with
      | zero => rw [List.getElem?_cons_zero] at hj; cases hj; exact le_refl _
      | succ j' =>
        rw [List.getElem?_cons_succ] at hj
        cases t with
        | nil => simp at hj
        | cons q t' =>
          have hpq := stopKeysSorted_head hs
          have hq : (q :: t')[0]? = some q := List.getElem?_cons_zero
          have := ih 0 j' q b (stopKeysSorted_tail hs) (Nat.zero_le _) hq hj
          omega
    | succ i' =>
      cases j with
      | zero => omega
      | succ j' =>
        rw [List.getElem?_cons_succ] at hi hj
        exact ih i' j' a b (stopKeysSorted_tail hs) (Nat.le_of_succ_le_succ hij) hi hj

lemma getLastD_getElem? : ∀ (rest : List (ℤ × ℚ)) (f : ℤ × ℚ),
    (f :: rest)[rest.length]? = some (rest.getLastD f) := by
  intro rest
  induction rest with
  | nil => intro f; rfl
  | cons q t ih =>
    intro f
    rw [List.getLastD_cons]
    show (f :: q :: t)[t.length + 1]? = some (t.getLastD q)
    rw [List.getElem?_cons_succ]
    exact ih q

lemma interpScan_eq : ∀ (s : List (ℤ × ℚ)) (i : ℕ) (z1 z2 : ℤ) (w1 w2 : ℚ)
    (z : ℚ), stopKeysSorted s = true →
    s[i]? = some (z1, w1) → s[i + 1]? = some (z2, w2) →
    (z1 : ℚ) < z → z < (z2 : ℚ) →
    interpScan z s =
      some (w1 + (z - (z1 : ℚ)) / ((z2 : ℚ) - (z1 : ℚ)) * (w2 - w1)) := by
  intro s
  induction s with
  | nil => intro i z1 z2 w1 w2 z _ hi; simp at hi
  | cons p t ih =>
    intro i z1 z2 w1 w2 z hs hi hi1 hz1 hz2
    cases i with
    | zero =>
      rw [List.getElem?_cons_zero] at hi
      cases hi
      rw [List.getElem?_cons_succ] at hi1
      cases t with
      | nil => simp at hi1
      | cons q t' =>
        rw [List.getElem?_cons_zero] at hi1
        cases hi1
        rw [interpScan, if_pos ⟨le_of_lt hz1, le_of_lt hz2⟩]
    | succ i' =>
      rw [List.getElem?_cons_succ] at hi hi1
      cases t with
      | nil => simp at hi
      | cons q t' =>
        have hrec := ih i' z1 z2 w1 w2 z (stopKeysSorted_tail hs) hi hi1 hz1 hz2
        have hq : (q :: t')[0]? = some q := List.getElem?_cons_zero
        have hqz1 : q.1 ≤ z1 :=
          sorted_key_le (q :: t') 0 i' q (z1, w1) (stopKeysSorted_tail hs)
            (Nat.zero_le _) hq hi
        have hnot : ¬ ((p.1 : ℚ) ≤ z ∧ z ≤ (q.1 : ℚ)) := by
          rintro ⟨-, hzq⟩
          have : (q.1 : ℚ) ≤ (z1 : ℚ) := by exact_mod_cast hqz1
          linarith
        obtain ⟨p1, p2⟩ := p
        obtain ⟨q1, q2⟩ := q
        rw [interpScan, if_neg hnot]
        exact hrec

/-- **C3** — Line-width interpolation over the stop set `{1: 0.5, 10: 2.5}`
(the source's default `lineWidthStops`) gives
`width(5) = 0.5 + (5-1)/(10-1)·(2.5-0.5)`, clamps `width(0)` to the lowest
stop's width `0.5` and `width(15)` to the highest stop's width `2.5`; and
in general, for a zoom strictly between two adjacent sorted stops, the
width is the linear interpolation by fractional zoom position. -/
theorem C3_line_width_interpolation :
    (get_line_width 5 defaultStops = 1/2 + (5 - 1)/(10 - 1) * (5/2 - 1/2)
      ∧ get_line_width 0 defaultStops = 1/2
      ∧ get_line_width 15 defaultStops = 5/2)
    ∧ ∀ (stops : List (ℤ × ℚ)) (i : ℕ) (z : ℚ) (z1 z2 : ℤ) (w1 w2 : ℚ),
        stopKeysSorted (sortStops stops) = true →
        (sortStops stops)[i]? = some (z1, w1) →
        (sortStops stops)[i + 1]? = some (z2, w2) →
        (z1 : ℚ) < z → z < (z2 : ℚ) →
        get_line_width z stops =
          w1 + (z - (z1 : ℚ)) / ((z2 : ℚ) - (z1 : ℚ)) * (w2 - w1) := by
  constructor
  · refine ⟨?_, ?_, ?_⟩ <;>
      norm_num [get_line_width, sortStops, insertStop, interpScan, defaultStops]
  · intro stops i z z1 z2 w1 w2 hs hi hi1 hz1 hz2
    rcases hseq : sortStops stops with - | ⟨f, rest⟩
    · rw [hseq] at hi; simp at hi
    · rw [hseq] at hs hi hi1
      have hf0 : (f :: rest)[0]? = some f := List.getElem?_cons_zero
      have hfz1 : f.1 ≤ z1 :=
        sorted_key_le (f :: rest) 0 i f (z1, w1) hs (Nat.zero_le _) hf0 hi
      have hlast : (f :: rest)[rest.length]? = some (rest.getLastD f) :=
        getLastD_getElem? rest f
      have hi1len : i + 1 < (f :: rest).length := (List.getElem?_eq_some.mp hi1).1
      have hz2last : z2 ≤ (rest.getLastD f).1 :=
        sorted_key_le (f :: rest) (i + 1) rest.length (z2, w2)
          (rest.getLastD f) hs
          (by simp only [List.length_cons] at hi1len; omega) hi1 hlast
      rw [get_line_width, hseq]
      have hnot1 : ¬ (z ≤ (f.1 : ℚ)) := by
        have : (f.1 : ℚ) ≤ (z1 : ℚ) := by exact_mod_cast hfz1
        linarith
      have hnot2 : ¬ (z ≥ ((rest.getLastD f).1 : ℚ)) := by
        have : (z2 : ℚ) ≤ ((rest.getLastD f).1 : ℚ) := by exact_mod_cast hz2last
        linarith
      simp only [hnot1, hnot2, if_false]
      rw [interpScan_eq (f :: rest) i z1 z2 w1 w2 z hs hi hi1 hz1 hz2]
      rfl

/-- **C3 witness** — the general interpolation clause applied to the
default stop set at zoom 5 (between the adjacent stops 1 and 10). -/
theorem C3_line_width_interpolation_witness :
    stopKeysSorted (sortStops defaultStops) = true
      ∧ get_line_width 5 defaultStops =
          1/2 + (5 - ((1 : ℤ) : ℚ)) / (((10 : ℤ) : ℚ) - ((1 : ℤ) : ℚ)) * (5/2 - 1/2) :=
  ⟨by decide,
   C3_line_width_interpolation.2 defaultStops 0 5 1 10 (1/2) (5/2)
     (by decide) rfl rfl (by decide) (by decide)⟩

/-! ## Helper lemmas: URL matching -/

/-- Case-insensitive (ASCII) prefix test between byte strings. -/
def lowerPrefixOf : List Nat → List Nat → Bool
  | [], _ => true
  | _ :: _, [] => false
  | c :: s, d :: input => lowerB c == lowerB d && lowerPrefixOf s input

/-- A successful match of a token stream that starts with literal tokens
forces the input to start with those literals (case-insensitively):
the compiled pattern is anchored at the start. -/
lemma matchToks_lit_prefix : ∀ (s : List Nat) (ts : List Tok) (input : List Nat)
    (caps : List (String × List Nat)),
    matchToks (s.map Tok.lit ++ ts) input = some caps →
    lowerPrefixOf s input = true := by
  intro s
  induction s with
  | nil => intro ts input caps _; rfl
  | cons c s' ih =>
    intro ts input caps h
    cases input with
    | nil => simp [matchToks] at h
    | cons d ds =>
      rw [List.map_cons, List.cons_append, matchToks] at h
      by_cases hcd : lowerB c = lowerB d
      · rw [if_pos hcd] at h
        show (lowerB c == lowerB d && lowerPrefixOf s' ds) = true
        rw [hcd]
        simp only [beq_self_eq_true, Bool.true_and]
        exact ih ts ds caps h
      · rw [if_neg hcd] at h
        exact absurd h (by simp)

/-- The example template and single-template config of the spec's URL
extraction test. -/
def exampleTemplate : String := "https://tile.example/{z}/{x}/{y}.png"

def exampleConfig : LayerConfig :=
  ⟨[exampleTemplate], some 0, some 5, none, none, none⟩

/-- The compiled example template: the literal prefix
`https://tile.example/` followed by the capture/literal tail. -/
lemma compile_exampleTemplate :
    compileTemplate (strBytes exampleTemplate) =
      (strBytes "https://tile.example/").map Tok.lit ++
        (Tok.cap "z" :: Tok.lit 47 :: Tok.cap "x" :: Tok.lit 47 :: Tok.cap "y" ::
          Tok.lit 46 :: Tok.lit 112 :: Tok.lit 110 :: Tok.lit 103 :: []) := by
  decide

/-- **C4** — With the single-template config for
`https://tile.example/{z}/{x}/{y}.png`, `extract_coords` maps
`https://tile.example/5/10/12.png` to `{z: 5, x: 10, y: 12}`, and any URL
that does not start (case-insensitively) with `https://tile.example/` —
in particular any URL with a different host — yields `none`. -/
theorem C4_extract_coords_example :
    extract_coords (strBytes "https://tile.example/5/10/12.png") exampleConfig
        = some ⟨5, 10, 12⟩
    ∧ ∀ url : List Nat,
        lowerPrefixOf (strBytes "https://tile.example/") url = false →
        extract_coords url exampleConfig = none := by
  refine ⟨by decide, ?_⟩
  intro url hpre
  rcases hm : matchToks (compileTemplate (strBytes exampleTemplate)) url with - | caps
  · simp [extract_coords, exampleConfig, List.findSome?_cons, hm]
  · have := matchToks_lit_prefix (strBytes "https://tile.example/") _ url caps
      (by rw [← compile_exampleTemplate]; exact hm)
    rw [hpre] at this
    exact absurd this (by simp)

/-- **C4 witness** — a URL on a different host fails the literal-prefix
test and therefore extracts no coordinates. -/
theorem C4_extract_coords_example_witness :
    lowerPrefixOf (strBytes "https://tile.example/")
        (strBytes "https://tile.other/5/10/12.png") = false
      ∧ extract_coords (strBytes "https://tile.other/5/10/12.png") exampleConfig = none :=
  ⟨by decide, C4_extract_coords_example.2 _ (by decide)⟩

/-- **C6 counterexample** — `extract_coords` performs no bounds check:
the URL `https://tile.example/2/100/5.png` matches the example template
and returns `{z: 2, x: 100, y: 5}` even though `100 ≥ 2^2`, violating the
claimed TileCoordinate invariant `0 ≤ x,y < 2^z`. -/
theorem C6_invariant_counterexample :
    extract_coords (strBytes "https://tile.example/2/100/5.png") exampleConfig
        = some ⟨2, 100, 5⟩
      ∧ ¬ ((100 : ℤ) < 2 ^ (2 : ℕ)) := by
  constructor
  · decide
  · decide

/-- **C6 (amended)** — Every coordinate triple returned by
`extract_coords` (for any URL and any config) has non-negative `z`, `x`
and `y` (they are parsed from decimal-digit captures); the upper bounds
`x, y < 2^z` of the TileCoordinate invariant are however not checked by
the code. -/
theorem C6_extract_coords_nonneg (url : List Nat) (config : LayerConfig)
    (c : Coords) (h : extract_coords url config = some c) :
    0 ≤ c.z ∧ 0 ≤ c.x ∧ 0 ≤ c.y := by
  rcases List.exists_of_findSome?_eq_some h with ⟨t, -, ht⟩
  split at ht
  · exact absurd ht (by simp)
  · split at ht
    · injection ht with ht2
      subst ht2
      exact ⟨Int.natCast_nonneg _, Int.natCast_nonneg _, Int.natCast_nonneg _⟩
    · exact absurd ht (by simp)

/-- **C6 witness (amended)** — the amended bound at the counterexample
coordinates. -/
theorem C6_extract_coords_nonneg_witness :
    0 ≤ (Coords.mk 2 100 5).z ∧ 0 ≤ (Coords.mk 2 100 5).x ∧ 0 ≤ (Coords.mk 2 100 5).y :=
  C6_extract_coords_nonneg (strBytes "https://tile.example/2/100/5.png")
    exampleConfig _ (by decide)

/-! ## Helper lemmas: the stubbed corrections pipeline -/

/-- Every cached corrections dict is the stubbed four-layer empty one —
the only value `get_corrections` ever inserts.  Holds for a fresh
`TileFixer` and is preserved by every call. -/
def CacheGood (fx : FixerState) : Prop :=
  ∀ p d, (p, d) ∈ fx.cache → d = emptyCorrections

lemma cacheGet_mem : ∀ (c : List ((ℤ × ℤ × ℤ) × CorrDict)) (k : ℤ × ℤ × ℤ)
    (d : CorrDict), cacheGet c k = some d → (k, d) ∈ c := by
  intro c
  induction c with
  | nil => intro k d h; simp [cacheGet] at h
  | cons e rest ih =>
    intro k d h
    obtain ⟨k', v⟩ := e
    rw [cacheGet] at h
    split at h
    · next heq =>
      cases h
      cases heq
      exact List.mem_cons_self _ _
    · exact List.mem_cons_of_mem _ (ih k d h)

lemma dget_emptyCorrections (s : String) : dget emptyCorrections s = [] := by
  simp [emptyCorrections, dget]

/-- The dict returned by `get_corrections` carries no features: it is
either the empty dict (exception path) or the stubbed four-layer one. -/
lemma get_corrections_stub {fx : FixerState} (env : Env) (z x y : ℤ)
    (hcg : CacheGood fx) :
    (get_corrections fx env z x y).1 = [] ∨
      (get_corrections fx env z x y).1 = emptyCorrections := by
  unfold get_corrections
  split
  · next d hd => exact Or.inr (hcg _ d (cacheGet_mem _ _ _ hd))
  · dsimp only
    split
    · exact Or.inr rfl
    · exact Or.inl rfl

/-- `fix_tile`'s body returns `None` whenever the selected layers carry
no features (this is C7; it is also the key step of C1/C2). -/
lemma fix_tile_body_none (ops : ImgOps) (corr : CorrDict) (config : LayerConfig)
    (z : ℤ) (data : List Nat) (ts : ℤ)
    (hadd : dget corr (addLayerName config z) = [])
    (hdel : dget corr (delLayerName config z) = []) :
    fix_tile_body ops corr config z data ts = none := by
  unfold fix_tile_body
  split
  · rfl
  · simp [hadd, hdel]

/-- With only stubbed corrections reachable, `fix_tile` never modifies a
tile. -/
lemma fix_tile_none (ops : ImgOps) {fx : FixerState} (env : Env)
    (config : LayerConfig) (z x y : ℤ) (data : List Nat) (ts : ℤ)
    (hcg : CacheGood fx) :
    (fix_tile ops fx env config z x y data ts).1 = none := by
  show fix_tile_body ops (get_corrections fx env z x y).1 config z data ts = none
  rcases get_corrections_stub env z x y hcg with hd | hd <;> rw [hd]
  · rw [fix_tile_body]; simp
  · exact fix_tile_body_none _ _ _ _ _ _ (dget_emptyCorrections _)
      (dget_emptyCorrections _)

/-- `_ensure_pmtiles` succeeds when the archive file exists and its
header parses (also when a previous call already opened the file). -/
lemma ensurePmtiles_ok {fx : FixerState} {env : Env} {bs : List Nat}
    (harch : env.archive = some bs) (hok : (read_header bs).isOk = true) :
    (ensurePmtiles fx env).1 = true := by
  unfold ensurePmtiles
  split
  · rfl
  · rw [harch]
    dsimp only
    rcases hr : read_header bs with e | h
    · rw [hr] at hok; exact absurd hok (by simp [Except.isOk, Except.toBool])
    · rfl

/-- **C1** — With the archive file present and its header parsing
successfully (and only stub-produced cache entries, as in any reachable
state), `get_corrections` returns the mapping with exactly the four
layer names `to-add-osm`, `to-del-osm`, `to-add-ne`, `to-del-ne`, each
bound to an empty list, and caches that result under the tile's key;
consequently `fix_tile` returns `None` for every tile. -/
theorem C1_stubbed_corrections (fx : FixerState) (env : Env) (z x y : ℤ)
    (bs : List Nat) (harch : env.archive = some bs)
    (hok : (read_header bs).isOk = true) (hcg : CacheGood fx) :
    (get_corrections fx env z x y).1 = emptyCorrections
    ∧ cacheGet (get_corrections fx env z x y).2.cache (z, x, y) =
        some emptyCorrections
    ∧ ∀ (ops : ImgOps) (config : LayerConfig) (data : List Nat) (ts : ℤ),
        (fix_tile ops fx env config z x y data ts).1 = none := by
  have hens : (ensurePmtiles fx env).1 = true := ensurePmtiles_ok harch hok
  have hmain : (get_corrections fx env z x y).1 = emptyCorrections ∧
      cacheGet (get_corrections fx env z x y).2.cache (z, x, y) =
        some emptyCorrections := by
    unfold get_corrections
    split
    · next d hd =>
      have hde := hcg _ d (cacheGet_mem _ _ _ hd)
      subst hde
      exact ⟨rfl, hd⟩
    · dsimp only
      rw [if_pos hens]
      exact ⟨rfl, by simp [cacheGet]⟩
  exact ⟨hmain.1, hmain.2, fun ops config data ts =>
    fix_tile_none ops env config z x y data ts hcg⟩

/-- Fixtures: an opaque PIL stand-in whose save function records the
requested format, archives with a good and a corrupted magic, and a
one-URL upstream. -/
def unitOps : ImgOps where
  Img := Unit
  imageOpen := fun _ => some ()
  convertRGBA := id
  drawLine := fun i _ _ _ => i
  save := fun _ fmt => strBytes fmt

def goodArchive : List Nat := strBytes "PMTiles" ++ [3] ++ List.replicate 119 0

def badArchive : List Nat := strBytes "XXTiles" ++ [3] ++ List.replicate 119 0

def exampleUrl : List Nat := strBytes "https://tile.example/5/10/12.png"

def sampleTile : FetchResult := ⟨[9, 9, 9], "image/png"⟩

def goodEnv : Env :=
  ⟨some goodArchive, fun v => if v = exampleUrl then some sampleTile else none⟩

def badEnv : Env :=
  ⟨some badArchive, fun v => if v = exampleUrl then some sampleTile else none⟩

/-- **C1 witness** — the stub behaviour at tile (5, 10, 12) with a
well-formed archive, from a fresh fixer. -/
theorem C1_stubbed_corrections_witness :
    (get_corrections initFixer goodEnv 5 10 12).1 = emptyCorrections
    ∧ cacheGet (get_corrections initFixer goodEnv 5 10 12).2.cache (5, 10, 12) =
        some emptyCorrections
    ∧ (fix_tile unitOps initFixer goodEnv exampleConfig 5 10 12 [9, 9, 9] 256).1 =
        none := by
  have h := C1_stubbed_corrections initFixer goodEnv 5 10 12 goodArchive rfl
    (by decide) (by intro p d hd; simp [initFixer] at hd)
  exact ⟨h.1, h.2.1, h.2.2 unitOps exampleConfig [9, 9, 9] 256⟩

/-- **C2** — Fail-open on a corrupted archive: when the archive's first
7 bytes are not the `PMTiles` magic, a `GET /proxy/{encoded-url}`
request whose upstream fetch succeeds and whose URL matches a configured
provider is answered 200 with exactly the original upstream tile bytes,
not an error response. -/
theorem C2_bad_magic_fail_open
    (configs : List LayerConfig) (ops : ImgOps) (fx : FixerState) (env : Env)
    (u : List Nat) (r : FetchResult) (ar : List Nat)
    (harch : env.archive = some ar) (hmagic : ar.take 7 ≠ strBytes "PMTiles")
    (hcg : CacheGood fx) (hfetch : env.fetch u = some r)
    (hmatch : (match_url configs u).isSome = true) (hu : ∀ b ∈ u, b < 256) :
    (do_GET configs ops fx env (strBytes "/proxy/" ++ quoteB u)).1
      = HResp.ok r.contentType r.body := by
  have hpref : (strBytes "/proxy/").isPrefixOf (strBytes "/proxy/" ++ quoteB u) = true :=
    List.isPrefixOf_iff_prefix.mpr (List.prefix_append _ _)
  have huq : unquoteB ((strBytes "/proxy/" ++ quoteB u).drop 7) = u := by
    rw [show (7 : Nat) = (strBytes "/proxy/").length from rfl, List.drop_left]
    exact unquote_quote hu
  unfold do_GET
  rw [if_neg (not_not_intro hpref)]
  dsimp only
  rw [huq, hfetch]
  dsimp only
  rcases hm : match_url configs u with - | config
  · rfl
  · dsimp only
    rcases he : extract_coords u config with - | c
    · rfl
    · dsimp only
      split
      · rw [fix_tile_none ops env config c.z c.x c.y r.body 256 hcg]
      · rfl

/-- **C2 witness** — a corrupted-magic archive, a matching URL and a
successful upstream fetch still produce 200 with the original bytes. -/
theorem C2_bad_magic_fail_open_witness :
    (do_GET [exampleConfig] unitOps initFixer badEnv
        (strBytes "/proxy/" ++ quoteB exampleUrl)).1
      = HResp.ok "image/png" [9, 9, 9] :=
  C2_bad_magic_fail_open [exampleConfig] unitOps initFixer badEnv exampleUrl
    sampleTile badArchive rfl (by decide)
    (by intro p d hd; simp [initFixer] at hd) rfl (by decide) (by decide)

/-- **C5** — `fix_tile` selects the correction-source layer pair by
comparing the tile's zoom with the config's `zoomThreshold` (default 5):
strictly below the threshold it reads the `to-add-ne`/`to-del-ne`
layers, at or above it the `to-add-osm`/`to-del-osm` layers (these are
the keys `fix_tile_body` reads from the corrections dict). -/
theorem C5_zoom_threshold_selection (config : LayerConfig) (z : ℤ) :
    (z < zoomThresholdOf config →
      addLayerName config z = "to-add-ne" ∧ delLayerName config z = "to-del-ne")
    ∧ (zoomThresholdOf config ≤ z →
      addLayerName config z = "to-add-osm" ∧ delLayerName config z = "to-del-osm") := by
  constructor
  · intro h
    have huse : useOsm config z = false := by
      unfold useOsm
      exact decide_eq_false (by omega)
    simp [addLayerName, delLayerName, huse]
  · intro h
    have huse : useOsm config z = true := by
      unfold useOsm
      exact decide_eq_true (by omega)
    simp [addLayerName, delLayerName, huse]

/-- **C5 witness** — both sides of the threshold (5) for the example
config: zoom 3 selects the `-ne` pair, zoom 7 the `-osm` pair. -/
theorem C5_zoom_threshold_selection_witness :
    ((3 : ℤ) < zoomThresholdOf exampleConfig
      ∧ addLayerName exampleConfig 3 = "to-add-ne"
      ∧ delLayerName exampleConfig 3 = "to-del-ne")
    ∧ (zoomThresholdOf exampleConfig ≤ (7 : ℤ)
      ∧ addLayerName exampleConfig 7 = "to-add-osm"
      ∧ delLayerName exampleConfig 7 = "to-del-osm") :=
  ⟨⟨by decide, (C5_zoom_threshold_selection exampleConfig 3).1 (by decide)⟩,
   ⟨by decide, (C5_zoom_threshold_selection exampleConfig 7).2 (by decide)⟩⟩

/-- **C7** — When the selected add-feature and delete-feature lists are
both empty, `fix_tile`'s body returns `None` for every choice of image
operations: no image is decoded or re-encoded and the tile bytes pass
through unmodified. -/
theorem C7_empty_layers_passthrough :
    ∀ (ops : ImgOps) (corr : CorrDict) (config : LayerConfig) (z : ℤ)
      (data : List Nat) (ts : ℤ),
      dget corr (addLayerName config z) = [] →
      dget corr (delLayerName config z) = [] →
      fix_tile_body ops corr config z data ts = none :=
  fun ops corr config z data ts hadd hdel =>
    fix_tile_body_none ops corr config z data ts hadd hdel

/-- **C7 witness** — the stubbed four-layer empty dict at zoom 10. -/
theorem C7_empty_layers_passthrough_witness :
    dget emptyCorrections (addLayerName exampleConfig 10) = []
    ∧ dget emptyCorrections (delLayerName exampleConfig 10) = []
    ∧ fix_tile_body unitOps emptyCorrections exampleConfig 10 [9, 9, 9] 256 = none :=
  ⟨by decide, by decide,
   C7_empty_layers_passthrough unitOps emptyCorrections exampleConfig 10 [9, 9, 9] 256
     (by decide) (by decide)⟩

/-- **C10** — Whenever `fix_tile`'s body returns bytes, they were
produced by `img.save(..., format='PNG')` — the PNG encoder — regardless
of the input tile's encoding; while the proxy response's `Content-Type`
header is always the upstream fetch's value. -/
theorem C10_png_output_and_content_type :
    (∀ (ops : ImgOps) (corr : CorrDict) (config : LayerConfig) (z : ℤ)
        (data : List Nat) (ts : ℤ) (out : List Nat),
        fix_tile_body ops corr config z data ts = some out →
        ∃ img : ops.Img, out = ops.save img "PNG")
    ∧ ∀ (configs : List LayerConfig) (ops : ImgOps) (fx : FixerState) (env : Env)
        (p : List Nat) (r : FetchResult),
        env.fetch (unquoteB p) = some r →
        ∃ body, (do_GET configs ops fx env (strBytes "/proxy/" ++ p)).1
          = HResp.ok r.contentType body := by
  constructor
  · intro ops corr config z data ts out h
    unfold fix_tile_body at h
    split at h
    · exact absurd h (by simp)
    · dsimp only at h
      split at h
      · exact absurd h (by simp)
      · split at h
        · exact absurd h (by simp)
        · exact ⟨_, (Option.some.inj h).symm⟩
  · intro configs ops fx env p r hfetch
    have hpref : (strBytes "/proxy/").isPrefixOf (strBytes "/proxy/" ++ p) = true :=
      List.isPrefixOf_iff_prefix.mpr (List.prefix_append _ _)
    have hdrop : (strBytes "/proxy/" ++ p).drop 7 = p := by
      rw [show (7 : Nat) = (strBytes "/proxy/").length from rfl, List.drop_left]
    unfold do_GET
    rw [if_neg (not_not_intro hpref)]
    dsimp only
    rw [hdrop, hfetch]
    dsimp only
    rcases hm : match_url configs (unquoteB p) with - | config
    · exact ⟨r.body, rfl⟩
    · dsimp only
      rcases he : extract_coords (unquoteB p) config with - | c
      · exact ⟨r.body, rfl⟩
      · dsimp only
        split
        · rcases hf : (fix_tile ops fx env config c.z c.x c.y r.body 256).1 with - | out
          · exact ⟨r.body, rfl⟩
          · exact ⟨out, rfl⟩
        · exact ⟨r.body, rfl⟩

/-- Corrections with one LineString in `to-add-osm`, exercising the
drawing and re-encoding path of `fix_tile`. -/
def sampleCorrections : CorrDict :=
  [("to-add-osm", [⟨Geometry.lineString [(0, 0), (100, 100)]⟩]),
   ("to-del-osm", []), ("to-add-ne", []), ("to-del-ne", [])]

/-- **C10 witness** — a tile with a nonempty `to-add-osm` layer is
re-encoded through the PNG save call, and a proxied request's response
carries the upstream content type. -/
theorem C10_png_output_and_content_type_witness :
    fix_tile_body unitOps sampleCorrections exampleConfig 10 [9, 9, 9] 256
        = some (strBytes "PNG")
    ∧ (∃ img : unitOps.Img, strBytes "PNG" = unitOps.save img "PNG")
    ∧ badEnv.fetch (unquoteB (quoteB exampleUrl)) = some sampleTile
    ∧ ∃ body, (do_GET [exampleConfig] unitOps initFixer badEnv
        (strBytes "/proxy/" ++ quoteB exampleUrl)).1
          = HResp.ok sampleTile.contentType body := by
  refine ⟨by decide, ?_, by decide, ?_⟩
  · exact C10_png_output_and_content_type.1 unitOps sampleCorrections exampleConfig
      10 [9, 9, 9] 256 (strBytes "PNG") (by decide)
  · exact C10_png_output_and_content_type.2 [exampleConfig] unitOps initFixer badEnv
      (quoteB exampleUrl) sampleTile (by decide)
